import Mathlib

/-!
Verification development for the GitVault Obsidian plugin
(snapshot synchronization core: `src/commands/refresh-data.ts`,
`src/templates/project-note.ts`, `src/github/api.ts`).

The TypeScript sources are shallowly embedded below.  JavaScript string
primitives (`String.prototype.split`, `String.prototype.replace` with a
string pattern, regular-expression scanning) are modelled as executable
functions over `List Char`, with the exact JS semantics used by the code:
`split` splits on every occurrence of the separator, `replace` with a
string pattern replaces only the first occurrence, and a regex `match`
scans left to right for the first position where the pattern matches.
-/

/-- `startsWithL pat s` is true iff `pat` is a prefix of `s`
(character-by-character comparison, as a JS regex literal would match). -/
def startsWithL : List Char → List Char → Bool
  | [], _ => true
  | _ :: _, [] => false
  | p :: ps, c :: cs => p == c && startsWithL ps cs

/-- `containsL pat s` is true iff `pat` occurs as a contiguous substring of
`s` (somewhere, at any position). -/
def containsL (pat : List Char) : List Char → Bool
  | [] => startsWithL pat []
  | c :: cs => startsWithL pat (c :: cs) || containsL pat cs

/-- `isSuffixL p s` is true iff `p` is a suffix of `s`. -/
def isSuffixL (p s : List Char) : Bool :=
  startsWithL p.reverse s.reverse

/-- Fuel-driven worker for `jsSplit`.  The fuel only serves to make the
recursion structural; `jsSplit` supplies enough fuel (the length of the
string) that the `0` fallback is never reached. -/
def jsSplitAux (sep : List Char) : Nat → List Char → List (List Char)
  | _, [] => [[]]
  | 0, s => [s]
  | fuel + 1, c :: rest =>
    if startsWithL sep (c :: rest) then
      [] :: jsSplitAux sep fuel (rest.drop (sep.length - 1))
    else
      match jsSplitAux sep fuel rest with
      | seg :: segs => (c :: seg) :: segs
      | [] => [[]]

/-- JavaScript `s.split(sep)` for a nonempty separator: the list of
segments of `s` between consecutive (leftmost, non-overlapping)
occurrences of `sep`.  Splits on every occurrence, exactly like the JS
method. -/
def jsSplit (sep s : List Char) : List (List Char) :=
  jsSplitAux sep s.length s

/-- JavaScript `s.replace(pat, '')` for a string (non-regex) pattern:
removes the first occurrence of `pat` from `s`, and returns `s` unchanged
if `pat` does not occur. -/
def replaceFirst (pat : List Char) : List Char → List Char
  | [] => []
  | c :: rest =>
    if startsWithL pat (c :: rest) then rest.drop (pat.length - 1)
    else c :: replaceFirst pat rest

/-- `firstOccurAt sep A B` states that in the string `A ++ sep ++ B` no
occurrence of `sep` starts strictly before position `A.length`; i.e. the
displayed occurrence of `sep` is the first one. -/
def firstOccurAt (sep A B : List Char) : Prop :=
  ∀ i, i < A.length → startsWithL sep ((A ++ sep ++ B).drop i) = false

/-! ## Reference parser (`GitHubAPI.parseGitHubUrl`, src/github/api.ts)

The source tries the patterns `github\.com\/([^\/]+)\/([^\/]+)` and
`github\.com\/([^\/]+)\/([^\/]+)\.git` in order and returns on the first
match, applying `.replace('.git', '')` to the second capture group.  The
second pattern is subsumed: whenever it matches somewhere, the first
pattern also matches at that or an earlier position, and the loop has
already returned.  So the embedding models only the first pattern, as the
leftmost position where the literal `github.com/` is followed by a
nonempty run of non-slash characters, a slash, and a second nonempty run
of non-slash characters (greedy runs, exactly the regex semantics). -/

/-- The literal `github.com/` as a character list. -/
def ghHost : List Char :=
  ['g', 'i', 't', 'h', 'u', 'b', '.', 'c', 'o', 'm', '/']

/-- One attempt of the pattern `github\.com\/([^\/]+)\/([^\/]+)` anchored
at the start of `s`, returning the two capture groups. -/
def tryMatchAt (s : List Char) : Option (List Char × List Char) :=
  if startsWithL ghHost s then
    let rest := s.drop ghHost.length
    let owner := rest.takeWhile (fun c => c != '/')
    match rest.drop owner.length with
    | c :: r2 =>
      if c = '/' then
        let repo := r2.takeWhile (fun c => c != '/')
        if owner.isEmpty || repo.isEmpty then none else some (owner, repo)
      else none
    | [] => none
  else none

/-- Left-to-right scan for the first position where the pattern matches
(the JS regex `match` search). -/
def findMatch : List Char → Option (List Char × List Char)
  | [] => none
  | c :: rest =>
    match tryMatchAt (c :: rest) with
    | some r => some r
    | none => findMatch rest

/-- `GitHubAPI.parseGitHubUrl` (src/github/api.ts lines 69-85 / 489-505):
match the URL against the pattern and return
`{ owner: match[1], repo: match[2].replace('.git', '') }`, or `null`. -/
def parseGitHubUrl (url : String) : Option (String × String) :=
  match findMatch url.data with
  | some (owner, repo) =>
    some (⟨owner⟩, ⟨replaceFirst ['.', 'g', 'i', 't'] repo⟩)
  | none => none

/-! ## Data model (`RepoData`, src/github/api.ts) and settings
(src/settings.ts).

Numeric fields are JS numbers holding non-negative integers (counts), so
they are modelled as `Nat`; date strings stay strings.  Fields that the
GitHub payload may omit (`description`, `language`, `homepage`, `topics`)
are already normalised to strings/lists by `fetchRepoData`, so `RepoData`
carries the normalised values, as in the TS interface. -/

structure LastCommit where
  message : String
  date : String
  author : String
  sha : String
deriving DecidableEq, Repr

structure RepoData where
  owner : String
  repo : String
  fullName : String
  description : String
  stars : Nat
  forks : Nat
  createdAt : String
  language : String
  lastCommit : LastCommit
  openIssues : Nat
  url : String
  homepage : String
  topics : List String
  readme : String
deriving DecidableEq, Repr

structure TemplateCustomization where
  includeDescription : Bool
  includeLastCommit : Bool
  includeIssues : Bool
  includeStars : Bool
deriving DecidableEq, Repr

structure ProjectSnapshotSettings where
  githubToken : String
  defaultFolder : String
  autoRefreshInterval : Nat
  showInStatusBar : Bool
  templateCustomization : TemplateCustomization
deriving DecidableEq, Repr

/-- Environment oracle for the impure primitives the template calls:
`new Date().toISOString()`, `new Date().toLocaleString()`, day-difference
against `Date.now()`, `formatDistanceToNow` (date-fns),
`new Date(d).toLocaleDateString()` and `Number.prototype.toLocaleString`.
These depend on the wall clock and the host locale, so they are passed in
as parameters; the template is a pure function of `TimeEnv`, the data and
the settings, exactly mirroring the source text everywhere else. -/
structure TimeEnv where
  nowISO : String
  nowLocaleString : String
  daysSince : String → Int
  distanceToNow : String → String
  localeDate : String → String
  localeNum : Nat → String

/-- JS string truthiness guard `s || d`: the empty string is falsy. -/
def jsOrStr (s d : String) : String :=
  if s = "" then d else s

/-- JS `s.toLowerCase()`, character-wise (the values it is applied to —
GitHub language names — are ASCII, where JS and `Char.toLower` agree). -/
def toLowerStr (s : String) : String :=
  ⟨s.data.map Char.toLower⟩

/-- JS `arr.join('\n')`. -/
def joinLines : List String → String
  | [] => ""
  | [x] => x
  | x :: xs => x ++ "\n" ++ joinLines xs

namespace ProjectNoteTemplate

/-- `escapeHtml` (src/templates/project-note.ts lines 169-176).  The
source chains `.replace(/&/g,'&amp;').replace(/</g,'&lt;')
.replace(/>/g,'&gt;').replace(/"/g,'&quot;')`; since the replacement
texts contain none of the later-replaced characters (`<`, `>`, `"`), the
chain is equivalent to this single character-wise pass. -/
def escapeChar (c : Char) : String :=
  if c = '&' then "&amp;"
  else if c = '<' then "&lt;"
  else if c = '>' then "&gt;"
  else if c = '"' then "&quot;"
  else String.singleton c

def escapeHtml (text : String) : String :=
  String.join (text.data.map escapeChar)

/-- `createStatCard` (lines 120-125): a multi-line HTML fragment. -/
def createStatCard (icon label value color : String) : String :=
  "  <div style=\"background: var(--background-secondary); border-radius: 10px; padding: 16px; text-align: center; border-top: 3px solid " ++ color ++ ";\">\n    <div style=\"font-size: 1.5em; font-weight: bold; color: var(--text-normal);\">" ++ value ++ "</div>\n    <div style=\"color: var(--text-muted); font-size: 0.85em; margin-top: 4px;\">" ++ icon ++ " " ++ label ++ "</div>\n  </div>"

/-- `createActionButton` (lines 127-129). -/
def createActionButton (label url : String) : String :=
  "  <a href=\"" ++ url ++ "\" style=\"display: block; background: var(--background-modifier-border); padding: 10px 16px; border-radius: 8px; text-decoration: none; color: var(--text-normal); text-align: center; transition: all 0.2s;\">" ++ label ++ "</a>"

structure ActivityStatus where
  label : String
  color : String
  icon : String

/-- `getActivityStatus` (lines 131-138). -/
def getActivityStatus (env : TimeEnv) (lastCommitDate : String) :
    ActivityStatus :=
  let daysSince := env.daysSince lastCommitDate
  if daysSince ≤ 7 then ⟨"Very Active", "#22c55e", "🟢"⟩
  else if daysSince ≤ 30 then ⟨"Active", "#3b82f6", "🔵"⟩
  else if daysSince ≤ 90 then ⟨"Moderate", "#f59e0b", "🟡"⟩
  else ⟨"Inactive", "#ef4444", "🔴"⟩

/-- `calculateHealthScore` (lines 140-167).  JS numbers are modelled as
`Int` (the intermediate score can go below zero before the final clamp). -/
def calculateHealthScore (env : TimeEnv) (data : RepoData) : Int :=
  let score : Int := 50
  let daysSinceCommit := env.daysSince data.lastCommit.date
  let score := score +
    (if daysSinceCommit ≤ 7 then 25
     else if daysSinceCommit ≤ 30 then 15
     else if daysSinceCommit ≤ 90 then 5
     else -10)
  let score := score +
    (if data.stars ≥ 1000 then 15
     else if data.stars ≥ 100 then 10
     else if data.stars ≥ 10 then 5
     else 0)
  let score := score +
    (if data.openIssues > 50 then -15
     else if data.openIssues > 20 then -10
     else if data.openIssues > 10 then -5
     else 0)
  let score := score + (if data.description ≠ "" then 5 else 0)
  let score := score + (if data.topics ≠ [] then 5 else 0)
  max 0 (min 100 score)

/-- The `sections` array built by `ProjectNoteTemplate.generate`
(src/templates/project-note.ts lines 6-115), transcribed push by push.
Note that no pushed entry is (or contains) the synchronization marker
`<!-- project-snapshot-end -->`: the last entry is the footer `</div>`. -/
def sectionsOf (env : TimeEnv) (data : RepoData)
    (settings : ProjectSnapshotSettings) : List String :=
  let timeAgo := env.distanceToNow data.lastCommit.date
  let activityStatus := getActivityStatus env data.lastCommit.date
  let healthScore := calculateHealthScore env data
  let sections : List String :=
    [ "---"
    , "repo_url: " ++ data.url
    , "updated: " ++ env.nowISO
    , "language: " ++ jsOrStr data.language "Unknown"
    , "stars: " ++ toString data.stars
    , "health_score: " ++ toString healthScore
    , "tags:"
    , "  - project-snapshot" ]
    ++ (if data.language ≠ "" then ["  - " ++ toLowerStr data.language] else [])
    ++
    [ "---"
    , ""
    , "# 📦 " ++ data.repo
    , ""
    , "> " ++ jsOrStr data.description "*No description provided*"
    , ""
    , "<div style=\"display: flex; gap: 8px; flex-wrap: wrap; margin: 16px 0;\">"
    , "  <span style=\"background: " ++ activityStatus.color ++ "; color: white; padding: 4px 12px; border-radius: 20px; font-size: 0.85em; font-weight: 500;\">" ++ activityStatus.icon ++ " " ++ activityStatus.label ++ "</span>" ]
    ++ (if data.language ≠ "" then
        ["  <span style=\"background: var(--background-modifier-border); padding: 4px 12px; border-radius: 20px; font-size: 0.85em;\">💻 " ++ data.language ++ "</span>"]
      else [])
    ++
    [ "  <span style=\"background: var(--background-modifier-border); padding: 4px 12px; border-radius: 20px; font-size: 0.85em;\">🏥 Health: " ++ toString healthScore ++ "/100</span>"
    , "</div>"
    , ""
    , "<div style=\"display: grid; grid-template-columns: repeat(auto-fit, minmax(120px, 1fr)); gap: 12px; margin: 20px 0;\">" ]
    ++ (if settings.templateCustomization.includeStars then
        [createStatCard "⭐" "Stars" (env.localeNum data.stars) "#f59e0b"]
      else [])
    ++ [createStatCard "🍴" "Forks" (env.localeNum data.forks) "#8b5cf6"]
    ++ (if settings.templateCustomization.includeIssues then
        [createStatCard "🐛" "Issues" (toString data.openIssues)
          (if data.openIssues > 10 then "#ef4444" else "#22c55e")]
      else [])
    ++ [createStatCard "💻" "Language" (jsOrStr data.language "N/A") "#3b82f6"]
    ++
    [ "</div>"
    , "" ]
    ++ (if settings.templateCustomization.includeLastCommit then
        [ "## 📝 Latest Commit"
        , ""
        , "<div style=\"background: var(--background-secondary); border-radius: 8px; padding: 16px; border-left: 4px solid var(--interactive-accent);\">"
        , "  <div style=\"font-weight: 600; margin-bottom: 8px;\">" ++ escapeHtml data.lastCommit.message ++ "</div>"
        , "  <div style=\"display: flex; gap: 16px; color: var(--text-muted); font-size: 0.9em;\">"
        , "    <span>👤 " ++ data.lastCommit.author ++ "</span>"
        , "    <span>🕐 " ++ timeAgo ++ "</span>"
        , "    <a href=\"" ++ data.url ++ "/commit/" ++ data.lastCommit.sha ++ "\" style=\"color: var(--text-accent);\">🔗 " ++ data.lastCommit.sha.take 7 ++ "</a>"
        , "  </div>"
        , "</div>"
        , "" ]
      else [])
    ++ (if data.topics ≠ [] then
        [ "## 🏷️ Topics"
        , ""
        , "<div style=\"display: flex; gap: 8px; flex-wrap: wrap;\">" ]
        ++ data.topics.map (fun topic =>
          "  <span style=\"background: var(--background-modifier-border); padding: 4px 10px; border-radius: 6px; font-size: 0.85em;\">" ++ topic ++ "</span>")
        ++
        [ "</div>"
        , "" ]
      else [])
    ++
    [ "## ⚡ Quick Actions"
    , ""
    , "<div style=\"display: grid; grid-template-columns: repeat(auto-fit, minmax(150px, 1fr)); gap: 10px;\">"
    , createActionButton "🔗 Repository" data.url
    , createActionButton "🐛 Issues" (data.url ++ "/issues")
    , createActionButton "🔀 Pull Requests" (data.url ++ "/pulls")
    , createActionButton "📜 Commits" (data.url ++ "/commits") ]
    ++ (if data.homepage ≠ "" then
        [createActionButton "🌐 Website" data.homepage]
      else [])
    ++
    [ "</div>"
    , ""
    , "## 📋 Repository Info"
    , ""
    , "| Property | Value |"
    , "| :--- | :--- |"
    , "| **Full Name** | [" ++ data.fullName ++ "](" ++ data.url ++ ") |"
    , "| **Created** | " ++ env.localeDate data.createdAt ++ " |"
    , "| **Language** | " ++ jsOrStr data.language "Not specified" ++ " |" ]
    ++ (if data.homepage ≠ "" then
        ["| **Website** | [" ++ data.homepage ++ "](" ++ data.homepage ++ ") |"]
      else [])
    ++
    [ ""
    , "---"
    , "<div style=\"display: flex; justify-content: space-between; color: var(--text-muted); font-size: 0.85em;\">"
    , "  <span>📦 Project Snapshot</span>"
    , "  <span>Last synced: " ++ env.nowLocaleString ++ "</span>" ]
    ++ ["</div>"]
  sections

/-- `ProjectNoteTemplate.generate` (src/templates/project-note.ts lines
6-118): build the `sections` array and `sections.join('\n')`. -/
def generate (env : TimeEnv) (data : RepoData)
    (settings : ProjectSnapshotSettings) : String :=
  joinLines (sectionsOf env data settings)

end ProjectNoteTemplate

/-! ## Snapshot synchronizer (`RefreshDataCommand.refreshSnapshot`,
src/commands/refresh-data.ts lines 80-103). -/

/-- The sentinel line the synchronizer splits on
(src/commands/refresh-data.ts line 85).  It occurs nowhere else in the
repository: in particular, `ProjectNoteTemplate.generate` never emits it. -/
def marker : String := "<!-- project-snapshot-end -->"

/-- The smart-sync core (lines 85-101): split the current content on
every occurrence of the marker (JS `split`); if the marker was found
(`parts.length > 1`), append `parts[1]` — the segment between the first
and second occurrence — after the freshly rendered content; otherwise
overwrite with the rendered content alone. -/
def smartMerge (newContent currentContent : String) : String :=
  match jsSplit marker.data currentContent.data with
  | _ :: userNotes :: _ => newContent ++ (⟨userNotes⟩ : String)
  | _ => newContent

/-- The synchronizer contract `merge(existingDocumentText, freshSnapshot,
renderTemplate)` from the spec, instantiated with the real renderer: the
composition actually executed by `refreshSnapshot` (render at line 80,
split-and-concatenate at lines 84-101). -/
def merge (existingDocumentText : String) (freshSnapshot : RepoData)
    (env : TimeEnv) (settings : ProjectSnapshotSettings) : String :=
  smartMerge (ProjectNoteTemplate.generate env freshSnapshot settings)
    existingDocumentText

/-! ## Remote client (`GitHubAPI.fetchRepoData`, src/github/api.ts lines
283-352).  The three HTTP round-trips (repository info, commit listing,
readme) are passed in as oracle responses; the function body below is the
data-flow of the TS `try` block and its `catch` classifier. -/

/-- A raw failure of one octokit call: an HTTP error with a status code
(octokit `RequestError`), or a non-HTTP exception thrown while building
the result (e.g. the `TypeError` from dereferencing `undefined`). -/
inductive ApiError where
  | http (status : Nat) (msg : String)
  | thrown (msg : String)
deriving DecidableEq, Repr

/-- The repository payload fields the function reads
(`repoResponse.data`).  Nullable remote fields are `Option`s here. -/
structure RepoInfoResp where
  full_name : String
  description : Option String
  stargazers_count : Nat
  forks_count : Nat
  created_at : String
  language : Option String
  open_issues_count : Nat
  html_url : String
  homepage : Option String
  topics : Option (List String)
deriving DecidableEq, Repr

/-- One element of `commitsResponse.data`: the fields the function reads.
`author_name`/`author_date` model `commit.author?.name` /
`commit.author?.date` (both optional-chained in the source). -/
structure CommitResp where
  message : String
  author_name : Option String
  author_date : Option String
  sha : String
deriving DecidableEq, Repr

/-- JS `opt || d` for an optional string field: `null`/`undefined` and
the empty string are falsy. -/
def jsOrOpt (s : Option String) (d : String) : String :=
  match s with
  | some v => if v = "" then d else v
  | none => d

/-- The message of the `TypeError` raised when
`commitsResponse.data[0]` is `undefined` and the code evaluates
`latestCommit.commit.message`.  The exact wording is runtime-specific;
no claim depends on it, only on the error branch being taken. -/
def typeErrorMessage : String :=
  "Cannot read properties of undefined"

/-- The `catch` classifier (lines 339-351): `404` and `403` get the two
specific notices, anything else gets `Error: <message>` (a thrown
`TypeError` has no `status`, so it also falls into the `else` branch). -/
def noticeForError (e : ApiError) : String :=
  match e with
  | .http 404 _ => "Repository not found. Check the URL."
  | .http 403 _ => "Rate limit exceeded. Add a GitHub token in settings."
  | .http _ msg => "Error: " ++ msg
  | .thrown msg => "Error: " ++ msg

/-- JS `message.split('\n')[0]`. -/
def firstLineStr (s : String) : String :=
  ⟨s.data.takeWhile (fun c => c != '\n')⟩

/-- `GitHubAPI.fetchRepoData(owner, repo, ref?)`: returns the normalized
`RepoData` plus the list of `Notice`s the call displayed, or `none` and
the error notice.  The commit listing is dereferenced at index 0 with no
emptiness guard (`const latestCommit = commitsResponse.data[0]` then
`latestCommit.commit.message...`), so an empty listing throws inside the
`try` and lands in the `catch`.  A failing readme fetch is swallowed by
the inner `try` (`readmeContent` stays `''`), modelled by the `Option`. -/
def fetchRepoData (owner repo : String)
    (repoResp : Except ApiError RepoInfoResp)
    (commitsResp : Except ApiError (List CommitResp))
    (readmeResp : Option String) : Option RepoData × List String :=
  match repoResp with
  | .error e => (none, [noticeForError e])
  | .ok info =>
    match commitsResp with
    | .error e => (none, [noticeForError e])
    | .ok commits =>
      match commits with
      | [] => (none, [noticeForError (.thrown typeErrorMessage)])
      | latest :: _ =>
        (some
          { owner := owner
            repo := repo
            fullName := info.full_name
            description := jsOrOpt info.description "No description"
            stars := info.stargazers_count
            forks := info.forks_count
            createdAt := info.created_at
            language := jsOrOpt info.language "Unknown"
            lastCommit :=
              { message := firstLineStr latest.message
                date := jsOrOpt latest.author_date ""
                author := jsOrOpt latest.author_name "Unknown"
                sha := latest.sha.take 7 }
            openIssues := info.open_issues_count
            url := info.html_url
            homepage := jsOrOpt info.homepage ""
            topics := info.topics.getD []
            readme := readmeResp.getD "" }, [])

/-! ## Refresh orchestrator (`RefreshDataCommand`,
src/commands/refresh-data.ts lines 13-108).

The vault is the list of markdown files; each file carries its parsed
front matter (as Obsidian's metadata cache would) and its body text.
`vault.modify` is modelled as the in-place update of the file's content
(write failures — the outer `catch` of `refreshSnapshot` — are out of
scope of the claims, which all concern the fetch/parse paths).  The
second component of each result is the list of `Notice` messages shown,
in order; it is the only per-document reporting the command does. -/

structure Frontmatter where
  repo_url : Option String
  branch : Option String
deriving DecidableEq, Repr

structure VFile where
  path : String
  frontmatter : Option Frontmatter
  content : String
deriving DecidableEq, Repr

/-- The client as seen by the orchestrator: `fetchRepoData` already
applied to the wire responses for a given `(owner, repo, branch)`.  The
second component is the notices the API call itself displayed (it shows
its own error notices unconditionally, see `noticeForError`). -/
def FetchFn : Type :=
  String → String → Option String → Option RepoData × List String

/-- `refreshSnapshot` (lines 67-108).  Note the `Invalid GitHub URL in
frontmatter` notice at line 70 is NOT guarded by `silent`, unlike every
other notice in this file. -/
def refreshSnapshot (env : TimeEnv) (settings : ProjectSnapshotSettings)
    (fetch : FetchFn) (file : VFile) (repoUrl : String)
    (branch : Option String) (silent : Bool) : VFile × List String :=
  match parseGitHubUrl repoUrl with
  | none => (file, ["Invalid GitHub URL in frontmatter"])
  | some (owner, repo) =>
    let fr := fetch owner repo branch
    match fr.1 with
    | none => (file, fr.2)
    | some data =>
      let newContent := ProjectNoteTemplate.generate env data settings
      let finalContent := smartMerge newContent file.content
      ({ file with content := finalContent },
        fr.2 ++ (if silent then [] else ["Updated snapshot: " ++ data.fullName]))

/-- The `${branch ? ` (${branch})` : ''}` fragment of the line-59 notice
(JS truthiness: `undefined` and `''` are falsy). -/
def branchNote (branch : Option String) : String :=
  match branch with
  | some b => if b = "" then "" else " (" ++ b ++ ")"
  | none => ""

/-- `refreshFile` (lines 47-65): no front matter → return; truthy
`repo_url` → refresh the snapshot (with a progress notice if manual);
otherwise a "not a snapshot" notice, only if manual. -/
def refreshFile (env : TimeEnv) (settings : ProjectSnapshotSettings)
    (fetch : FetchFn) (file : VFile) (silent : Bool) : VFile × List String :=
  match file.frontmatter with
  | none => (file, [])
  | some fm =>
    match fm.repo_url with
    | some repoUrl =>
      if repoUrl = "" then
        (file, if silent then [] else ["Current file is not a Project Snapshot"])
      else
        let pre : List String :=
          if silent then []
          else ["Refreshing snapshot for " ++ repoUrl ++ branchNote fm.branch ++ "..."]
        let r := refreshSnapshot env settings fetch file repoUrl fm.branch silent
        (r.1, pre ++ r.2)
    | none =>
      (file, if silent then [] else ["Current file is not a Project Snapshot"])

/-- `refreshAllSnapshots` (lines 40-45): iterate every markdown file in
the vault and `await this.refreshFile(file, true)` for each.  The TS
function returns `Promise<void>`: nothing is aggregated or returned; the
model keeps the updated vault and the concatenated notice log, the only
observable effects. -/
def refreshAllSnapshots (env : TimeEnv) (settings : ProjectSnapshotSettings)
    (fetch : FetchFn) : List VFile → List VFile × List String
  | [] => ([], [])
  | f :: rest =>
    let r := refreshFile env settings fetch f true
    let rs := refreshAllSnapshots env settings fetch rest
    (r.1 :: rs.1, r.2 ++ rs.2)

/-! ## Predicates used in the claims, and concrete fixtures -/

/-- The document has no `repo_url` front-matter field (either no front
matter at all, or front matter without the key). -/
def hasNoRepoUrl (f : VFile) : Prop :=
  ∀ fm, f.frontmatter = some fm → fm.repo_url = none

/-- The remote fetch fails for this document: whenever the document has a
parseable `repo_url`, the client call for it returns `null`. -/
def fetchFailsFor (fetch : FetchFn) (f : VFile) : Prop :=
  ∀ fm url o r, f.frontmatter = some fm → fm.repo_url = some url →
    parseGitHubUrl url = some (o, r) → (fetch o r fm.branch).1 = none

/-- A URL component "with no special characters": nonempty, made of
ASCII alphanumerics and hyphens. -/
def plainComponent (s : String) : Prop :=
  s ≠ "" ∧ ∀ c ∈ s.data, c.isAlphanum = true ∨ c = '-'

/-- A concrete environment (fixed wall clock / locale). -/
def env0 : TimeEnv :=
  { nowISO := "2025-01-01T00:00:00.000Z"
    nowLocaleString := "1/1/2025, 12:00:00 AM"
    daysSince := fun _ => 3
    distanceToNow := fun _ => "3 days ago"
    localeDate := fun _ => "1/2/2020"
    localeNum := fun n => toString n }

/-- The default settings (src/settings.ts, `DEFAULT_SETTINGS`). -/
def st0 : ProjectSnapshotSettings :=
  { githubToken := ""
    defaultFolder := "Projects"
    autoRefreshInterval := 60
    showInStatusBar := true
    templateCustomization :=
      { includeDescription := true
        includeLastCommit := true
        includeIssues := true
        includeStars := true } }

/-- A concrete snapshot. -/
def D0 : RepoData :=
  { owner := "acme"
    repo := "widget"
    fullName := "acme/widget"
    description := "A widget"
    stars := 42
    forks := 7
    createdAt := "2020-01-02T03:04:05Z"
    language := "Rust"
    lastCommit :=
      { message := "Initial commit"
        date := "2024-12-29T07:08:09Z"
        author := "Alice"
        sha := "abcdef1" }
    openIssues := 3
    url := "https://github.com/acme/widget"
    homepage := ""
    topics := []
    readme := "" }

/-- A document that already contains the sentinel once, followed by user
notes. -/
def T0 : String :=
  "# Generated\n" ++ marker ++ "\nKEEP-THESE-USER-NOTES"

/-- A document in which the sentinel occurs twice. -/
def T1 : String :=
  "intro " ++ marker ++ " middle " ++ marker ++ " tail"

/-- A client that always fails (returns `null` with no notice). -/
def fetchNone : FetchFn := fun _ _ _ => (none, [])

/-- A client for which `acme/widget` succeeds with `D0` and everything
else fails with the not-found notice `fetchRepoData` displays on a 404. -/
def fetch0 : FetchFn := fun o r _ =>
  if o = "acme" && r = "widget" then (some D0, [])
  else (none, [noticeForError (.http 404 "Not Found")])

/-- A tracked document whose fetch succeeds under `fetch0`. -/
def f1 : VFile :=
  { path := "p1.md"
    frontmatter := some { repo_url := some "https://github.com/acme/widget", branch := none }
    content := "old content 1" }

/-- A tracked document whose fetch fails under `fetch0`. -/
def f2 : VFile :=
  { path := "p2.md"
    frontmatter := some { repo_url := some "https://github.com/acme/broken", branch := none }
    content := "old content 2" }

/-- A document whose stored `repo_url` cannot be parsed. -/
def fBad : VFile :=
  { path := "bad.md"
    frontmatter := some { repo_url := some "not a valid reference", branch := none }
    content := "precious body" }

/-- A document with front matter but no `repo_url` key. -/
def f6 : VFile :=
  { path := "note.md"
    frontmatter := some { repo_url := none, branch := none }
    content := "personal note" }

/-! ## Lemmas and theorems -/

theorem startsWithL_append_self (p t : List Char) :
    startsWithL p (p ++ t) = true := by
  induction p with
  | nil => rfl
  | cons c cs ih => simp [startsWithL, ih]

theorem startsWithL_iff (p s : List Char) :
    startsWithL p s = true ↔ ∃ t, s = p ++ t := by
  induction p generalizing s with
  | nil => simp [startsWithL]
  | cons c cs ih =>
    cases s with
    | nil => simp [startsWithL]
    | cons d ds =>
      simp only [startsWithL, Bool.and_eq_true, beq_iff_eq, ih]
      constructor
      · rintro ⟨rfl, t, rfl⟩
        exact ⟨t, rfl⟩
      · rintro ⟨t, h⟩
        rcases List.cons_eq_cons.mp h with ⟨rfl, h2⟩
        exact ⟨rfl, t, h2⟩

theorem isSuffixL_iff (p s : List Char) :
    isSuffixL p s = true ↔ ∃ t, s = t ++ p := by
  rw [isSuffixL, startsWithL_iff]
  constructor
  · rintro ⟨t, h⟩
    refine ⟨t.reverse, ?_⟩
    have := congrArg List.reverse h
    simpa using this
  · rintro ⟨t, rfl⟩
    exact ⟨t.reverse, by simp⟩

theorem containsL_eq_false_iff (pat s : List Char) (h : containsL pat s = false) :
    ∀ i, startsWithL pat (s.drop i) = false := by
  induction s with
  | nil =>
    intro i
    simpa [containsL, List.drop_nil] using h
  | cons c cs ih =>
    intro i
    simp only [containsL, Bool.or_eq_false_iff] at h
    match i with
    | 0 => simpa using h.1
    | j + 1 => simpa using ih h.2 j

theorem jsSplitAux_no_occur (sep s : List Char) (h : containsL sep s = false) :
    ∀ fuel, jsSplitAux sep fuel s = [s] := by
  induction s with
  | nil => intro fuel; cases fuel <;> rfl
  | cons c cs ih =>
    intro fuel
    simp only [containsL, Bool.or_eq_false_iff] at h
    cases fuel with
    | zero => rfl
    | succ f =>
      simp [jsSplitAux, h.1, ih h.2 f]

theorem jsSplit_no_occur (sep s : List Char) (h : containsL sep s = false) :
    jsSplit sep s = [s] :=
  jsSplitAux_no_occur sep s h _

theorem jsSplitAux_first (c₀ : Char) (sep' A B : List Char)
    (h : firstOccurAt (c₀ :: sep') A B) :
    ∀ fuel, A.length + 1 ≤ fuel →
      jsSplitAux (c₀ :: sep') fuel (A ++ (c₀ :: sep') ++ B) =
        A :: jsSplitAux (c₀ :: sep') (fuel - (A.length + 1)) B := by
  induction A with
  | nil =>
    intro fuel hf
    match fuel, hf with
    | f + 1, _ =>
      have hpre : startsWithL (c₀ :: sep') (c₀ :: (sep' ++ B)) = true :=
        startsWithL_append_self (c₀ :: sep') B
      have hdrop : (sep' ++ B).drop ((c₀ :: sep').length - 1) = B := by
        simp [List.drop_left]
      show jsSplitAux (c₀ :: sep') (f + 1) (c₀ :: (sep' ++ B)) = _
      rw [jsSplitAux, if_pos hpre, hdrop]
      simp
  | cons a A' ih =>
    intro fuel hf
    match fuel, hf with
    | f + 1, hf =>
      have hf' : A'.length + 1 ≤ f := by
        simp only [List.length_cons] at hf
        omega
      have hassoc : (a :: A') ++ (c₀ :: sep') ++ B =
          a :: (A' ++ (c₀ :: sep') ++ B) := by simp
      have h0 : startsWithL (c₀ :: sep')
          (a :: (A' ++ (c₀ :: sep') ++ B)) = false := by
        have := h 0 (by simp)
        rwa [List.drop_zero, hassoc] at this
      have hshift : firstOccurAt (c₀ :: sep') A' B := by
        intro i hi
        have := h (i + 1) (by simp; omega)
        rwa [hassoc, List.drop_succ_cons] at this
      rw [hassoc, jsSplitAux, if_neg (by rw [h0]; simp),
        ih hshift f hf']
      simp [Nat.succ_sub_succ]

theorem jsSplit_first (c₀ : Char) (sep' A B : List Char)
    (h : firstOccurAt (c₀ :: sep') A B)
    (hB : containsL (c₀ :: sep') B = false) :
    jsSplit (c₀ :: sep') (A ++ (c₀ :: sep') ++ B) = [A, B] := by
  rw [jsSplit]
  have hlen : A.length + 1 ≤ (A ++ (c₀ :: sep') ++ B).length := by
    simp only [List.length_append, List.length_cons]
    omega
  rw [jsSplitAux_first c₀ sep' A B h _ hlen,
    jsSplitAux_no_occur _ _ hB]

theorem replaceFirst_no_occur (pat s : List Char)
    (h : containsL pat s = false) : replaceFirst pat s = s := by
  induction s with
  | nil => rfl
  | cons c cs ih =>
    simp only [containsL, Bool.or_eq_false_iff] at h
    simp [replaceFirst, h.1, ih h.2]

theorem replaceFirst_first (c₀ : Char) (pat' A B : List Char)
    (h : firstOccurAt (c₀ :: pat') A B) :
    replaceFirst (c₀ :: pat') (A ++ (c₀ :: pat') ++ B) = A ++ B := by
  induction A with
  | nil =>
    have hpre : startsWithL (c₀ :: pat') (c₀ :: (pat' ++ B)) = true :=
      startsWithL_append_self (c₀ :: pat') B
    show replaceFirst (c₀ :: pat') (c₀ :: (pat' ++ B)) = B
    rw [replaceFirst, if_pos hpre]
    simp [List.drop_left]
  | cons a A' ih =>
    have hassoc : (a :: A') ++ (c₀ :: pat') ++ B =
        a :: (A' ++ (c₀ :: pat') ++ B) := by simp
    have h0 : startsWithL (c₀ :: pat')
        (a :: (A' ++ (c₀ :: pat') ++ B)) = false := by
      have := h 0 (by simp)
      rwa [List.drop_zero, hassoc] at this
    have hshift : firstOccurAt (c₀ :: pat') A' B := by
      intro i hi
      have := h (i + 1) (by simp; omega)
      rwa [hassoc, List.drop_succ_cons] at this
    rw [hassoc, replaceFirst, if_neg (by rw [h0]; simp),
      ih hshift]
    simp

theorem takeWhile_all_sat (p : Char → Bool) (l : List Char)
    (h : ∀ c ∈ l, p c = true) : l.takeWhile p = l := by
  induction l with
  | nil => rfl
  | cons c cs ih =>
    rw [List.takeWhile_cons, h c (by simp)]
    simp [ih fun d hd => h d (by simp [hd])]

theorem takeWhile_until (p : Char → Bool) (l₁ l₂ : List Char) (a : Char)
    (h : ∀ c ∈ l₁, p c = true) (ha : p a = false) :
    (l₁ ++ a :: l₂).takeWhile p = l₁ := by
  induction l₁ with
  | nil => simp [List.takeWhile_cons, ha]
  | cons c cs ih =>
    rw [List.cons_append, List.takeWhile_cons, h c (by simp)]
    simp [ih fun d hd => h d (by simp [hd])]

theorem tryMatchAt_canonical (owner seg : List Char)
    (ho : owner ≠ []) (ho2 : ∀ c ∈ owner, c ≠ '/')
    (hs : seg ≠ []) (hs2 : ∀ c ∈ seg, c ≠ '/') :
    tryMatchAt (ghHost ++ owner ++ '/' :: seg) = some (owner, seg) := by
  have hpre : startsWithL ghHost (ghHost ++ owner ++ '/' :: seg) = true :=
    startsWithL_append_self _ _
  have hdrop : (ghHost ++ owner ++ '/' :: seg).drop ghHost.length =
      owner ++ '/' :: seg := List.drop_left _ _
  have htake : (owner ++ '/' :: seg).takeWhile (fun c => c != '/') = owner :=
    takeWhile_until _ _ _ _
      (fun c hc => by simp [ho2 c hc]) (by simp)
  have hdrop2 : (owner ++ '/' :: seg).drop owner.length = '/' :: seg :=
    List.drop_left _ _
  have htake2 : seg.takeWhile (fun c => c != '/') = seg :=
    takeWhile_all_sat _ _ (fun c hc => by simp [hs2 c hc])
  rw [tryMatchAt, if_pos hpre]
  simp only [hdrop, htake, hdrop2, htake2]
  simp [List.isEmpty_iff, ho, hs]

theorem findMatch_cons_ne (c : Char) (rest : List Char)
    (h : ('g' == c) = false) : findMatch (c :: rest) = findMatch rest := by
  have : tryMatchAt (c :: rest) = none := by
    rw [tryMatchAt, if_neg]
    simp [ghHost, startsWithL, h]
  rw [findMatch, this]

theorem findMatch_none (s : List Char)
    (h : ∀ i, startsWithL ghHost (s.drop i) = false) : findMatch s = none := by
  induction s with
  | nil => rfl
  | cons c rest ih =>
    have h0 : tryMatchAt (c :: rest) = none := by
      rw [tryMatchAt, if_neg]
      simpa using h 0
    rw [findMatch, h0]
    exact ih fun i => by simpa using h (i + 1)

/-! ## Structural string lemmas used to reason about the generated text
without evaluating it wholesale. -/

theorem strData_append (a b : String) : (a ++ b).data = a.data ++ b.data :=
  rfl

theorem strData_newline : ("\n" : String).data = ['\n'] := by decide

theorem startsWithL_of_append_le (pat x y : List Char)
    (h : startsWithL pat (x ++ y) = true) (hl : pat.length ≤ x.length) :
    startsWithL pat x = true := by
  induction pat generalizing x with
  | nil => rfl
  | cons p ps ih =>
    cases x with
    | nil => simp at hl
    | cons a x' =>
      simp only [List.cons_append, startsWithL, Bool.and_eq_true] at h ⊢
      exact ⟨h.1, ih x' h.2 (by simpa using hl)⟩

theorem startsWithL_append_long_mem (pat x b : List Char) (d : Char)
    (h : startsWithL pat (x ++ d :: b) = true) (hl : x.length < pat.length) :
    d ∈ pat := by
  induction x generalizing pat with
  | nil =>
    cases pat with
    | nil => simp at hl
    | cons p ps =>
      simp only [List.nil_append, startsWithL, Bool.and_eq_true,
        beq_iff_eq] at h
      simp [h.1]
  | cons a x' ih =>
    cases pat with
    | nil => simp at hl
    | cons p ps =>
      simp only [List.cons_append, startsWithL, Bool.and_eq_true] at h
      have := ih ps h.2 (by simpa using hl)
      simp [this]

theorem containsL_splice (pat a b : List Char) (d : Char)
    (hne : pat ≠ []) (hd : d ∉ pat)
    (ha : containsL pat a = false) (hb : containsL pat b = false) :
    containsL pat (a ++ d :: b) = false := by
  induction a with
  | nil =>
    simp only [List.nil_append, containsL, Bool.or_eq_false_iff]
    refine ⟨?_, hb⟩
    cases hs : startsWithL pat (d :: b) with
    | false => rfl
    | true =>
      exact absurd (startsWithL_append_long_mem pat [] b d
        (by simpa using hs) (by simpa using List.length_pos.mpr hne)) hd
  | cons c a' ih =>
    simp only [containsL, Bool.or_eq_false_iff] at ha
    have ih' := ih ha.2
    simp only [List.cons_append, containsL, Bool.or_eq_false_iff]
    refine ⟨?_, ih'⟩
    cases hs : startsWithL pat ((c :: a') ++ d :: b) with
    | false => simpa using hs
    | true =>
      by_cases hlen : pat.length ≤ (c :: a').length
      · have := startsWithL_of_append_le pat (c :: a') (d :: b) hs hlen
        rw [ha.1] at this
        exact absurd this (by simp)
      · exact absurd (startsWithL_append_long_mem pat (c :: a') b d hs
          (by omega)) hd

theorem joinLines_not_contains (pat : List Char) (L : List String)
    (hne : pat ≠ []) (hnl : '\n' ∉ pat)
    (hlines : ∀ l ∈ L, containsL pat l.data = false) :
    containsL pat (joinLines L).data = false := by
  induction L with
  | nil =>
    simp only [joinLines]
    cases pat with
    | nil => exact absurd rfl hne
    | cons p ps => rfl
  | cons x xs ih =>
    cases xs with
    | nil =>
      simpa [joinLines] using hlines x (by simp)
    | cons y ys =>
      have hx := hlines x (by simp)
      have hrest := ih (fun l hl => hlines l (by simp [hl]))
      have hdata : (x ++ "\n" ++ joinLines (y :: ys)).data =
          x.data ++ '\n' :: (joinLines (y :: ys)).data := by
        rw [strData_append, strData_append, strData_newline]
        simp
      show containsL pat (x ++ "\n" ++ joinLines (y :: ys)).data = false
      rw [hdata]
      exact containsL_splice pat x.data (joinLines (y :: ys)).data '\n'
        hne hnl hx hrest

theorem getLastOpt_chain {α : Type} (l₁ l₂ : List α) (y : α)
    (h : l₂.getLast? = some y) : (l₁ ++ l₂).getLast? = some y := by
  induction l₁ with
  | nil => simpa using h
  | cons a l' ih =>
    rw [List.cons_append]
    cases hl : l' ++ l₂ with
    | nil =>
      rcases List.append_eq_nil.mp hl with ⟨_, rfl⟩
      simp at h
    | cons b t =>
      rw [List.getLast?_cons_cons, ← hl]
      exact ih

theorem joinLines_getLast (L : List String) (y : String)
    (h : L.getLast? = some y) :
    ∃ u, (joinLines L).data = u ++ y.data := by
  induction L with
  | nil => simp at h
  | cons x xs ih =>
    cases xs with
    | nil =>
      simp only [List.getLast?_singleton, Option.some_inj] at h
      exact ⟨[], by simp [joinLines, h]⟩
    | cons z zs =>
      have hh : (z :: zs).getLast? = some y := by
        simpa [List.getLast?_cons_cons] using h
      rcases ih hh with ⟨u, hu⟩
      refine ⟨x.data ++ '\n' :: u, ?_⟩
      show (x ++ "\n" ++ joinLines (z :: zs)).data = _
      rw [strData_append, strData_append, strData_newline, hu]
      simp

theorem startsWithL_le_of_both (a b s : List Char)
    (ha : startsWithL a s = true) (hb : startsWithL b s = true)
    (hl : a.length ≤ b.length) : startsWithL a b = true := by
  induction a generalizing b s with
  | nil => rfl
  | cons x xs ih =>
    cases b with
    | nil => simp at hl
    | cons y ys =>
      cases s with
      | nil => simp [startsWithL] at ha
      | cons c cs =>
        simp only [startsWithL, Bool.and_eq_true, beq_iff_eq] at ha hb ⊢
        exact ⟨ha.1.trans hb.1.symm, ih ys cs ha.2 hb.2 (by simpa using hl)⟩

/-- Two suffix decompositions of the same list: the shorter suffix is a
suffix of the longer one. -/
theorem suffix_of_suffix_le (s t u p q : List Char)
    (hp : s = t ++ p) (hq : s = u ++ q) (hl : q.length ≤ p.length) :
    ∃ v, p = v ++ q := by
  have hps : startsWithL p.reverse s.reverse = true := by
    rw [hp, List.reverse_append]
    exact startsWithL_append_self _ _
  have hqs : startsWithL q.reverse s.reverse = true := by
    rw [hq, List.reverse_append]
    exact startsWithL_append_self _ _
  have := startsWithL_le_of_both q.reverse p.reverse s.reverse hqs hps
    (by simpa using hl)
  rcases (startsWithL_iff _ _).mp this with ⟨w, hw⟩
  refine ⟨w.reverse, ?_⟩
  have := congrArg List.reverse hw
  simpa using this

theorem sectionsOf_getLast (env : TimeEnv) (data : RepoData)
    (settings : ProjectSnapshotSettings) :
    (ProjectNoteTemplate.sectionsOf env data settings).getLast? =
      some "</div>" := by
  simp only [ProjectNoteTemplate.sectionsOf]
  repeat apply getLastOpt_chain
  rfl

/-- The generated note always ends with the footer line `</div>`. -/
theorem generate_ends_footer (env : TimeEnv) (data : RepoData)
    (settings : ProjectSnapshotSettings) :
    ∃ u, (ProjectNoteTemplate.generate env data settings).data =
      u ++ "</div>".data :=
  joinLines_getLast _ _ (sectionsOf_getLast env data settings)

theorem strData_ne_nil (s : String) (h : s ≠ "") : s.data ≠ [] := by
  intro hd
  apply h
  cases s with
  | mk l =>
    cases hd
    rfl

theorem containsL_head_mem (p : Char) (ps s : List Char)
    (h : containsL (p :: ps) s = true) : p ∈ s := by
  induction s with
  | nil => simp [containsL, startsWithL] at h
  | cons c cs ih =>
    simp only [containsL, Bool.or_eq_true] at h
    rcases h with h | h
    · simp only [startsWithL, Bool.and_eq_true, beq_iff_eq] at h
      simp [h.1]
    · simp [ih h]

/-- C2.  For every snapshot and settings, the rendered note does NOT end
with the sentinel line `<!-- project-snapshot-end -->`: the template
(src/templates/project-note.ts) never pushes the marker, and its last
line is always the footer `</div>`.  This refutes the claim that the
generated region ends with the sentinel the synchronizer splits on. -/
theorem generate_never_ends_with_marker (env : TimeEnv) (data : RepoData)
    (settings : ProjectSnapshotSettings) :
    isSuffixL marker.data
      (ProjectNoteTemplate.generate env data settings).data = false := by
  cases hs : isSuffixL marker.data
      (ProjectNoteTemplate.generate env data settings).data with
  | false => rfl
  | true =>
    exfalso
    rcases (isSuffixL_iff _ _).mp hs with ⟨t, ht⟩
    rcases generate_ends_footer env data settings with ⟨u, hu⟩
    rcases suffix_of_suffix_le _ t u marker.data ("</div>".data) ht hu
      (by decide) with ⟨v, hv⟩
    have htrue : isSuffixL "</div>".data marker.data = true :=
      (isSuffixL_iff _ _).mpr ⟨v, hv⟩
    have hfalse : isSuffixL "</div>".data marker.data = false := by decide
    rw [htrue] at hfalse
    exact Bool.noConfusion hfalse

/-- C9.  If the commit listing is empty, `fetchRepoData` never returns a
snapshot: `commitsResponse.data[0]` is dereferenced without a guard, the
thrown `TypeError` lands in the `catch` (no `status`, so the generic
`Error:` notice), and the call returns `null` even though the repository
lookup itself succeeded. -/
theorem fetchRepoData_empty_commits (owner repo : String)
    (info : RepoInfoResp) (readme : Option String) :
    fetchRepoData owner repo (Except.ok info) (Except.ok []) readme =
      (none, ["Error: " ++ typeErrorMessage]) := rfl

/-- C5.  If the reference parses but the client returns `null`, the
refresh performs no write: the document is returned untouched
(`if (!data) return;` precedes any `vault.modify`). -/
theorem refreshSnapshot_fetch_fail_no_write (env : TimeEnv)
    (st : ProjectSnapshotSettings) (fetch : FetchFn) (file : VFile)
    (url : String) (branch : Option String) (silent : Bool)
    (o r : String) (hparse : parseGitHubUrl url = some (o, r))
    (hfail : (fetch o r branch).1 = none) :
    (refreshSnapshot env st fetch file url branch silent).1 = file := by
  rw [refreshSnapshot, hparse]
  simp only [hfail]

theorem refreshSnapshot_fetch_fail_no_write_witness :
    (refreshSnapshot env0 st0 fetchNone f2
      "https://github.com/acme/broken" none false).1 = f2 :=
  refreshSnapshot_fetch_fail_no_write env0 st0 fetchNone f2
    "https://github.com/acme/broken" none false "acme" "broken"
    (by decide) rfl

/-- C6.  A document with no `repo_url` in its metadata is never written:
`refreshFile` falls into the notice-only branch (or returns immediately
when there is no front matter at all), so the content is unchanged. -/
theorem refreshFile_no_repo_url_noop (env : TimeEnv)
    (st : ProjectSnapshotSettings) (fetch : FetchFn) (file : VFile)
    (silent : Bool) (h : hasNoRepoUrl file) :
    (refreshFile env st fetch file silent).1 = file := by
  cases hfm : file.frontmatter with
  | none => simp [refreshFile, hfm]
  | some fm => simp [refreshFile, hfm, h fm hfm]

theorem refreshFile_no_repo_url_noop_witness :
    (refreshFile env0 st0 fetchNone f6 false).1 = f6 :=
  refreshFile_no_repo_url_noop env0 st0 fetchNone f6 false
    (fun fm hfm => by cases hfm; rfl)

/-- C7 counterexample.  During a silent batch refresh, a document whose
stored `repo_url` cannot be parsed is skipped (no write) — but it is NOT
skipped "without any user-facing notification": the
`Invalid GitHub URL in frontmatter` notice (refresh-data.ts line 70) is
the one notice in the file not guarded by `silent`, so it fires even with
`silent = true`. -/
theorem silent_batch_shows_invalid_url_notice :
    (refreshFile env0 st0 fetchNone fBad true).2 =
      ["Invalid GitHub URL in frontmatter"] ∧
    (refreshFile env0 st0 fetchNone fBad true).1 = fBad := by
  constructor <;> decide

/-- C7 amended.  Whenever the stored reference does not parse,
`refreshSnapshot` skips the document (no write) in BOTH modes, and shows
the invalid-URL notice in BOTH modes — `silent` does not suppress it. -/
theorem invalid_url_notice_unconditional (env : TimeEnv)
    (st : ProjectSnapshotSettings) (fetch : FetchFn) (file : VFile)
    (url : String) (branch : Option String) (silent : Bool)
    (h : parseGitHubUrl url = none) :
    refreshSnapshot env st fetch file url branch silent =
      (file, ["Invalid GitHub URL in frontmatter"]) := by
  rw [refreshSnapshot, h]

theorem invalid_url_notice_unconditional_witness :
    refreshSnapshot env0 st0 fetchNone fBad "not a valid reference"
        none true =
      (fBad, ["Invalid GitHub URL in frontmatter"]) :=
  invalid_url_notice_unconditional env0 st0 fetchNone fBad
    "not a valid reference" none true (by decide)

theorem findMatch_canonical (owner seg : List Char)
    (ho : owner ≠ []) (ho2 : ∀ c ∈ owner, c ≠ '/')
    (hs : seg ≠ []) (hs2 : ∀ c ∈ seg, c ≠ '/') :
    findMatch (ghHost ++ owner ++ '/' :: seg) = some (owner, seg) := by
  have ht := tryMatchAt_canonical owner seg ho ho2 hs hs2
  have hshape : ghHost ++ owner ++ '/' :: seg =
      'g' :: (['i', 't', 'h', 'u', 'b', '.', 'c', 'o', 'm', '/'] ++
        owner ++ '/' :: seg) := rfl
  rw [hshape] at ht ⊢
  rw [findMatch, ht]

theorem parse_canonical (owner seg : List Char)
    (ho : owner ≠ []) (ho2 : ∀ c ∈ owner, c ≠ '/')
    (hs : seg ≠ []) (hs2 : ∀ c ∈ seg, c ≠ '/') :
    parseGitHubUrl ("https://github.com/" ++ (⟨owner⟩ : String) ++ "/" ++
        (⟨seg⟩ : String)) =
      some (⟨owner⟩, ⟨replaceFirst ['.', 'g', 'i', 't'] seg⟩) := by
  have hdata : ("https://github.com/" ++ (⟨owner⟩ : String) ++ "/" ++
      (⟨seg⟩ : String)).data =
      'h' :: 't' :: 't' :: 'p' :: 's' :: ':' :: '/' :: '/' ::
        (ghHost ++ owner ++ '/' :: seg) := by
    rw [strData_append, strData_append, strData_append]
    rw [show ("https://github.com/" : String).data =
        'h' :: 't' :: 't' :: 'p' :: 's' :: ':' :: '/' :: '/' :: ghHost from
        by decide]
    rw [show ("/" : String).data = ['/'] from by decide]
    simp
  rw [parseGitHubUrl, hdata]
  rw [findMatch_cons_ne 'h' _ (by decide), findMatch_cons_ne 't' _ (by decide),
    findMatch_cons_ne 't' _ (by decide), findMatch_cons_ne 'p' _ (by decide),
    findMatch_cons_ne 's' _ (by decide), findMatch_cons_ne ':' _ (by decide),
    findMatch_cons_ne '/' _ (by decide), findMatch_cons_ne '/' _ (by decide)]
  rw [findMatch_canonical owner seg ho ho2 hs hs2]

/-- C8.  `parseGitHubUrl` round-trips on canonical URLs built from
components with no special characters, and returns `null` (never raises)
on any input in which the host literal `github.com/` does not occur. -/
theorem parseGitHubUrl_round_trip_and_null :
    (∀ owner name : String, plainComponent owner → plainComponent name →
      parseGitHubUrl ("https://github.com/" ++ owner ++ "/" ++ name) =
        some (owner, name)) ∧
    (∀ s : String, containsL ghHost s.data = false →
      parseGitHubUrl s = none) := by
  constructor
  · intro owner name how han
    have ho2 : ∀ c ∈ owner.data, c ≠ '/' := by
      intro c hc he
      rcases how.2 c hc with h | h
      · subst he; exact absurd h (by decide)
      · subst he; exact absurd h (by decide)
    have hn2 : ∀ c ∈ name.data, c ≠ '/' := by
      intro c hc he
      rcases han.2 c hc with h | h
      · subst he; exact absurd h (by decide)
      · subst he; exact absurd h (by decide)
    have hng : containsL ['.', 'g', 'i', 't'] name.data = false := by
      cases hcg : containsL ['.', 'g', 'i', 't'] name.data with
      | false => rfl
      | true =>
        exfalso
        have hdot := containsL_head_mem '.' _ _ hcg
        rcases han.2 '.' hdot with h | h
        · exact absurd h (by decide)
        · exact absurd h (by decide)
    have hcan := parse_canonical owner.data name.data
      (strData_ne_nil _ how.1) ho2 (strData_ne_nil _ han.1) hn2
    rw [replaceFirst_no_occur _ _ hng] at hcan
    exact hcan
  · intro s hs
    rw [parseGitHubUrl, findMatch_none s.data (containsL_eq_false_iff _ _ hs)]

theorem parseGitHubUrl_round_trip_witness :
    parseGitHubUrl ("https://github.com/" ++ "acme" ++ "/" ++ "widget") =
      some ("acme", "widget") ∧
    parseGitHubUrl "just some note text" = none :=
  ⟨parseGitHubUrl_round_trip_and_null.1 "acme" "widget"
      ⟨by decide, by decide⟩ ⟨by decide, by decide⟩,
   parseGitHubUrl_round_trip_and_null.2 "just some note text" (by decide)⟩

/-- C10.  The `.replace('.git', '')` in `parseGitHubUrl` is not anchored
to the end of the repo segment: for a segment containing `.git` as an
inner substring (first occurrence after `A`), the returned repo name is
the segment with that first occurrence removed — not the original
segment. -/
theorem parseGitHubUrl_strips_inner_dot_git (owner : String)
    (A B : List Char) (ho : owner ≠ "")
    (ho2 : ∀ c ∈ owner.data, c ≠ '/')
    (hA : ∀ c ∈ A, c ≠ '/') (hB : ∀ c ∈ B, c ≠ '/')
    (hfirst : firstOccurAt ['.', 'g', 'i', 't'] A B) :
    parseGitHubUrl ("https://github.com/" ++ owner ++ "/" ++
        (⟨A ++ ['.', 'g', 'i', 't'] ++ B⟩ : String)) =
      some (owner, (⟨A ++ B⟩ : String)) ∧
    (⟨A ++ B⟩ : String) ≠ (⟨A ++ ['.', 'g', 'i', 't'] ++ B⟩ : String) := by
  constructor
  · have hseg2 : ∀ c ∈ A ++ ['.', 'g', 'i', 't'] ++ B, c ≠ '/' := by
      intro c hc
      rcases List.mem_append.mp hc with h | h
      · rcases List.mem_append.mp h with h | h
        · exact hA c h
        · simp only [List.mem_cons, List.not_mem_nil, or_false] at h
          rcases h with rfl | rfl | rfl | rfl <;> decide
      · exact hB c h
    have hsne : A ++ ['.', 'g', 'i', 't'] ++ B ≠ [] := by simp
    have hcan := parse_canonical owner.data (A ++ ['.', 'g', 'i', 't'] ++ B)
      (strData_ne_nil _ ho) ho2 hsne hseg2
    rw [replaceFirst_first '.' ['g', 'i', 't'] A B hfirst] at hcan
    exact hcan
  · intro h
    have hd := congrArg String.data h
    have hlen := congrArg List.length hd
    simp [List.length_append] at hlen
    omega

theorem parseGitHubUrl_strips_inner_dot_git_witness :
    parseGitHubUrl ("https://github.com/" ++ "foo" ++ "/" ++
        (⟨['m', 'y'] ++ ['.', 'g', 'i', 't'] ++ "hub.io".data⟩ : String)) =
      some ("foo", (⟨['m', 'y'] ++ "hub.io".data⟩ : String)) ∧
    (⟨['m', 'y'] ++ "hub.io".data⟩ : String) ≠
      (⟨['m', 'y'] ++ ['.', 'g', 'i', 't'] ++ "hub.io".data⟩ : String) :=
  parseGitHubUrl_strips_inner_dot_git "foo" ['m', 'y'] ("hub.io".data)
    (by decide) (by decide) (by decide) (by decide)
    (by unfold firstOccurAt; decide)

set_option maxRecDepth 40000 in
theorem sections0_marker_free :
    ∀ l ∈ ProjectNoteTemplate.sectionsOf env0 D0 st0,
      containsL marker.data l.data = false := by decide

theorem generate0_marker_free :
    containsL marker.data
      (ProjectNoteTemplate.generate env0 D0 st0).data = false :=
  joinLines_not_contains _ _ (by decide) (by decide) sections0_marker_free

/-- C1.  Merge idempotence fails on the code: because the template never
emits the sentinel, the output of the first merge contains no sentinel at
all, so the second merge with the same snapshot takes the overwrite
branch and returns the bare generated region — the user notes preserved
by the first merge are dropped, not preserved byte-for-byte. -/
theorem merge_twice_drops_user_notes :
    merge (merge T0 D0 env0 st0) D0 env0 st0 =
      ProjectNoteTemplate.generate env0 D0 st0 ∧
    ¬ ∃ C : List Char,
      (merge (merge T0 D0 env0 st0) D0 env0 st0).data =
        C ++ ("\nKEEP-THESE-USER-NOTES" : String).data := by
  have hsplit1 : jsSplit marker.data T0.data =
      ["# Generated\n".data, "\nKEEP-THESE-USER-NOTES".data] := by
    have hdata : T0.data = "# Generated\n".data ++ marker.data ++
        "\nKEEP-THESE-USER-NOTES".data := rfl
    rw [hdata,
      show marker.data = '<' :: "!-- project-snapshot-end -->".data from
        by decide]
    exact jsSplit_first '<' _ _ _ (by unfold firstOccurAt; decide) (by decide)
  have hmerge1 : merge T0 D0 env0 st0 =
      ProjectNoteTemplate.generate env0 D0 st0 ++
        "\nKEEP-THESE-USER-NOTES" := by
    rw [merge, smartMerge, hsplit1]
  have hcat : containsL marker.data
      (ProjectNoteTemplate.generate env0 D0 st0 ++
        "\nKEEP-THESE-USER-NOTES").data = false := by
    rw [strData_append,
      show ("\nKEEP-THESE-USER-NOTES" : String).data =
        '\n' :: "KEEP-THESE-USER-NOTES".data from by decide]
    exact containsL_splice _ _ _ '\n' (by decide) (by decide)
      generate0_marker_free (by decide)
  have hmerge2 : merge (merge T0 D0 env0 st0) D0 env0 st0 =
      ProjectNoteTemplate.generate env0 D0 st0 := by
    rw [hmerge1, merge, smartMerge, jsSplit_no_occur _ _ hcat]
  refine ⟨hmerge2, ?_⟩
  rintro ⟨C, hC⟩
  rw [hmerge2] at hC
  rcases generate_ends_footer env0 D0 st0 with ⟨u, hu⟩
  rcases suffix_of_suffix_le _ C u
      ("\nKEEP-THESE-USER-NOTES" : String).data ("</div>".data)
      hC hu (by decide) with ⟨v, hv⟩
  exact absurd ((isSuffixL_iff _ _).mpr ⟨v, hv⟩) (by decide)

/-- C3 counterexample.  When the sentinel occurs twice, JS `split`
separates on BOTH occurrences and `parts[1]` is only the segment between
them: the merge result ends with `" middle "`, not with the preserved
suffix `" middle " ++ marker ++ " tail"` that follows the first
occurrence. -/
theorem merge_two_markers_counterexample :
    merge T1 D0 env0 st0 =
      ProjectNoteTemplate.generate env0 D0 st0 ++ " middle " ∧
    ¬ ∃ C : List Char, (merge T1 D0 env0 st0).data =
      C ++ (" middle " ++ marker ++ " tail").data := by
  have hsplit : jsSplit marker.data T1.data =
      ["intro ".data, " middle ".data, " tail".data] := by
    have hdata : T1.data = "intro ".data ++ marker.data ++
        (" middle ".data ++ marker.data ++ " tail".data) := by decide
    have hm : marker.data = '<' :: "!-- project-snapshot-end -->".data := by
      decide
    rw [jsSplit, hdata, hm]
    rw [jsSplitAux_first '<' _ _ _ (by unfold firstOccurAt; decide) _
      (by decide)]
    rw [jsSplitAux_first '<' _ _ _ (by unfold firstOccurAt; decide) _
      (by decide)]
    rw [jsSplitAux_no_occur _ _ (by decide)]
  have hm1 : merge T1 D0 env0 st0 =
      ProjectNoteTemplate.generate env0 D0 st0 ++ " middle " := by
    rw [merge, smartMerge, hsplit]
  refine ⟨hm1, ?_⟩
  rintro ⟨C, hC⟩
  rw [hm1] at hC
  have e2 := congrArg List.getLast? hC
  rw [strData_append] at e2
  rw [getLastOpt_chain _ _ ' ' (by decide),
    getLastOpt_chain _ _ 'l' (by decide)] at e2
  exact absurd e2 (by decide)

/-- C3 amended.  When the sentinel occurs exactly once (first occurrence
right after `A`, no occurrence in `B`), `merge` does end with exactly the
preserved suffix `B`: the result is the rendered region followed
verbatim by everything after the sentinel. -/
theorem merge_single_marker (A B : List Char) (S : RepoData)
    (env : TimeEnv) (st : ProjectSnapshotSettings)
    (hfirst : firstOccurAt marker.data A B)
    (hB : containsL marker.data B = false) :
    merge (⟨A ++ marker.data ++ B⟩ : String) S env st =
      ProjectNoteTemplate.generate env S st ++ (⟨B⟩ : String) := by
  have hm : marker.data = '<' :: "!-- project-snapshot-end -->".data := by
    decide
  rw [hm] at hfirst hB
  rw [merge, smartMerge,
    show (⟨A ++ marker.data ++ B⟩ : String).data = A ++ marker.data ++ B
      from rfl,
    hm, jsSplit_first '<' _ A B hfirst hB]

theorem merge_single_marker_witness :
    merge (⟨"pre ".data ++ marker.data ++ " my notes".data⟩ : String)
        D0 env0 st0 =
      ProjectNoteTemplate.generate env0 D0 st0 ++
        (⟨" my notes".data⟩ : String) :=
  merge_single_marker _ _ D0 env0 st0 (by unfold firstOccurAt; decide)
    (by decide)

theorem refreshFile_unchanged_of_fetchFail (env : TimeEnv)
    (st : ProjectSnapshotSettings) (fetch : FetchFn) (f : VFile)
    (silent : Bool) (h : fetchFailsFor fetch f) :
    (refreshFile env st fetch f silent).1 = f := by
  cases hfm : f.frontmatter with
  | none => simp [refreshFile, hfm]
  | some fm =>
    cases hurl : fm.repo_url with
    | none => simp [refreshFile, hfm, hurl]
    | some url =>
      by_cases hemp : url = ""
      · simp [refreshFile, hfm, hurl, hemp]
      · simp only [refreshFile, hfm, hurl, if_neg hemp]
        cases hp : parseGitHubUrl url with
        | none => simp [refreshSnapshot, hp]
        | some pr =>
          obtain ⟨o, r⟩ := pr
          have hfail := h fm url o r hfm hurl hp
          simp [refreshSnapshot, hp, hfail]

/-- C4 amended.  `refreshAllSnapshots` processes every file in the vault
independently (the result is a pointwise map, so the batch never aborts
on a failure), and any file whose fetch fails is left byte-identical.
But nothing is returned or aggregated per document: the TS function
returns `Promise<void>`, and successes are silent. -/
theorem refreshAll_processes_every_file (env : TimeEnv)
    (st : ProjectSnapshotSettings) (fetch : FetchFn) (files : List VFile) :
    (refreshAllSnapshots env st fetch files).1 =
      files.map (fun f => (refreshFile env st fetch f true).1) ∧
    ∀ f ∈ files, fetchFailsFor fetch f →
      (refreshFile env st fetch f true).1 = f := by
  constructor
  · induction files with
    | nil => rfl
    | cons f fs ih => simp [refreshAllSnapshots, ih]
  · intro f _ hf
    exact refreshFile_unchanged_of_fetchFail env st fetch f true hf

theorem refreshAll_processes_every_file_witness :
    (refreshAllSnapshots env0 st0 fetchNone [f2]).1 =
      [f2].map (fun f => (refreshFile env0 st0 fetchNone f true).1) ∧
    (refreshFile env0 st0 fetchNone f2 true).1 = f2 :=
  ⟨(refreshAll_processes_every_file env0 st0 fetchNone [f2]).1,
   (refreshAll_processes_every_file env0 st0 fetchNone [f2]).2 f2 (by simp)
     (fun _ _ _ _ _ _ _ => rfl)⟩

/-- C4 counterexample.  Two tracked documents, the second failing: the
batch produces only the single unconditional API failure notice — there
is no list of N per-document outcomes (the TS function returns
`Promise<void>`; successes report nothing in silent mode) — while the
failing document stays byte-identical. -/
theorem refreshAll_returns_no_outcome_list :
    (refreshAllSnapshots env0 st0 fetch0 [f1, f2]).2 =
      ["Repository not found. Check the URL."] ∧
    (refreshAllSnapshots env0 st0 fetch0 [f1, f2]).1.get? 1 = some f2 := by
  constructor <;> decide
